import Mathlib

/-!
Shallow embedding of the retrieval engine of the omni-webui repository:
the Chroma-backed VectorStore client (`open_webui/retrieval/vector/dbs/chroma.py`),
the ingestion pipeline `save_docs_to_vector_db` and the reranking configuration
endpoints (`omni_webui/routers/retrieval.py`), and the ColBERT late-interaction
scorer (`open_webui/retrieval/models/colbert.py`).

External libraries (chromadb, torch/colbert, langchain splitters, embedding
providers) are modelled as parameters or as the state transformations they
perform; the repository code itself is translated statement by statement.
-/

namespace OmniWebui

/-! ## Metadata values

Python metadata dictionaries hold strings, numbers, booleans and (before
sanitisation) `datetime` objects.  A `datetime` is represented by the string
`str(value)` renders it to. -/

inductive MetaValue where
  | str (s : String)
  | int (n : Int)
  | num (q : ℚ)
  | bool (b : Bool)
  | datetime (rendered : String)
deriving DecidableEq

/-- Metadata dictionary: association list from string keys to values. -/
abbrev Meta := List (String × MetaValue)

/-- Dictionary lookup: first entry with the given key. -/
def alookup {β : Type} : List (String × β) → String → Option β
  | [], _ => none
  | (k, v) :: t, key => if k = key then some v else alookup t key

/-- Python dict merge `{**a, **b}`: values of `b` win on key clashes. -/
def mergeDict (a b : Meta) : Meta :=
  b ++ a.filter (fun kv => (alookup b kv.1).isNone)

/-- Conversion applied by `save_docs_to_vector_db` to each metadata value:
`if isinstance(value, datetime): metadata[key] = str(value)`. -/
def sanitizeValue : MetaValue → MetaValue
  | .datetime r => .str r
  | v => v

/-- Whether a metadata value is a `datetime` object. -/
def MetaValue.isDatetime : MetaValue → Bool
  | .datetime _ => true
  | _ => false

/-- Apply `sanitizeValue` to every value of a metadata dictionary. -/
def sanitizeMeta (m : Meta) : Meta :=
  m.map (fun kv => (kv.1, sanitizeValue kv.2))

/-! ## Vector store data model (`open_webui/retrieval/vector/main.py`) -/

/-- Unit of storage in a collection. -/
structure VectorItem where
  id : String
  text : String
  vector : List ℚ
  metadata : Meta
deriving DecidableEq

/-- Result of a filter fetch or a full dump. -/
structure GetResult where
  ids : List (List String)
  documents : List (List String)
  metadatas : List (List Meta)
deriving DecidableEq

/-- Result of a nearest-neighbour search: a `GetResult` plus distances. -/
structure SearchResult extends GetResult where
  distances : Option (List (List ℚ))
deriving DecidableEq

/-! ## Chroma backend state

The chromadb client is modelled as a store mapping collection names to
collections; a collection records its distance-space metadata and its items. -/

/-- A backend-managed collection. -/
structure Collection where
  space : String
  items : List VectorItem
deriving DecidableEq

/-- State of the chromadb client: the named collections it manages. -/
structure ChromaState where
  collections : List (String × Collection)
deriving DecidableEq

/-- Exceptions raised by the chromadb library. -/
inductive ChromaErr where
  | collectionNotFound (name : String)
  | backendFailure (msg : String)
deriving DecidableEq

/-- Result dictionary of `collection.query` in chromadb. -/
structure RawQueryResult where
  ids : List (List String)
  distances : List (List ℚ)
  documents : List (List String)
  metadatas : List (List Meta)

namespace ChromaDB

/-- Library call `client.get_collection(name=...)`: raises when the collection
does not exist, otherwise returns it. -/
def get_collection (s : ChromaState) (name : String) : Except ChromaErr Collection :=
  match alookup s.collections name with
  | some c => .ok c
  | none => .error (.collectionNotFound name)

/-- Library call `client.get_or_create_collection(name, metadata)`: creates an
empty collection with the given distance space when absent. -/
def get_or_create_collection (s : ChromaState) (name space : String) : ChromaState :=
  match alookup s.collections name with
  | some _ => s
  | none => ⟨s.collections ++ [(name, ⟨space, []⟩)]⟩

/-- Point update of the entries with a given key in an association list. -/
def updateAssoc {β : Type} : List (String × β) → String → (β → β) → List (String × β)
  | [], _, _ => []
  | (k, v) :: t, key, f =>
    if k = key then (k, f v) :: updateAssoc t key f
    else (k, v) :: updateAssoc t key f

/-- Library call `collection.add(...)` for one batch: appends the batch to the
named collection. -/
def collectionAdd (s : ChromaState) (name : String) (batch : List VectorItem) : ChromaState :=
  ⟨updateAssoc s.collections name (fun c => ⟨c.space, c.items ++ batch⟩)⟩

/-- Library helper `create_batches`: splits the items into consecutive
sub-batches no larger than the backend maximum batch size. -/
def create_batches {α : Type} (maxBatch : Nat) : List α → List (List α)
  | [] => []
  | x :: xs => (x :: xs.take (maxBatch - 1)) :: create_batches maxBatch (xs.drop (maxBatch - 1))
termination_by l => l.length
decreasing_by simp [List.length_drop]; omega

/-- Whether a metadata dictionary satisfies a `where` filter: every filter
entry must be present with an equal value. -/
def matchesFilter (filter : Meta) (m : Meta) : Bool :=
  filter.all (fun kv => decide (alookup m kv.1 = some kv.2))

/-- Library call `collection.get(where=filter, limit=...)` in its non-failing
behaviour: the items whose metadata matches the filter, truncated to `limit`.
A deployment's backend may instead raise; callers of `ChromaClient.query` that
need that failure mode pass a different `Except`-valued implementation. -/
def collectionGet (c : Collection) (filter : Meta) (limit : Option Nat) :
    Except ChromaErr (List VectorItem) :=
  let matched := c.items.filter (fun it => matchesFilter filter it.metadata)
  .ok (match limit with | some n => matched.take n | none => matched)

end ChromaDB

/-- The `GetResult` built from the items of one collection (chroma wraps the
flat result lists in a singleton outer list). -/
def getResultOfItems (items : List VectorItem) : GetResult :=
  ⟨[items.map (·.id)], [items.map (·.text)], [items.map (·.metadata)]⟩

namespace ChromaClient

/-- Method `ChromaClient.has_collection`: membership of the name in the list
of collection names. -/
def has_collection (s : ChromaState) (collection_name : String) : Bool :=
  decide (collection_name ∈ s.collections.map Prod.fst)

/-- Method `ChromaClient.delete_collection`: drops the named collection. -/
def delete_collection (s : ChromaState) (collection_name : String) : ChromaState :=
  ⟨s.collections.filter (fun kv => decide (kv.1 ≠ collection_name))⟩

/-- Method `ChromaClient.search`: the whole body sits in a `try` block whose
`except` clause returns `None`.  The nearest-neighbour computation of
`collection.query` is the external chromadb library, taken as a parameter. -/
def search (knn : Collection → List (List ℚ) → Nat → Except ChromaErr RawQueryResult)
    (s : ChromaState) (collection_name : String) (vectors : List (List ℚ))
    (limit : Nat) : Option SearchResult :=
  match ChromaDB.get_collection s collection_name with
  | .error _ => none
  | .ok c =>
    match knn c vectors limit with
    | .error _ => none
    | .ok r => some (SearchResult.mk ⟨r.ids, r.documents, r.metadatas⟩ (some r.distances))

/-- Method `ChromaClient.query`: metadata-filter fetch, `try`-wrapped so any
failure — a missing collection in `get_collection` or a raising
`collection.get` backend call — yields `None`.  The backend fetch is a
parameter (its non-failing behaviour is `ChromaDB.collectionGet`). -/
def query (cget : Collection → Meta → Option Nat → Except ChromaErr (List VectorItem))
    (s : ChromaState) (collection_name : String) (filter : Meta)
    (limit : Option Nat) : Option GetResult :=
  match ChromaDB.get_collection s collection_name with
  | .error _ => none
  | .ok c =>
    match cget c filter limit with
    | .error _ => none
    | .ok matched => some (getResultOfItems matched)

/-- Method `ChromaClient.get`: full dump of a collection.  Unlike `search` and
`query` it has no exception handler, so a `get_collection` failure
propagates to the caller. -/
def get (s : ChromaState) (collection_name : String) :
    Except ChromaErr (Option GetResult) :=
  match ChromaDB.get_collection s collection_name with
  | .error e => .error e
  | .ok c => .ok (some (getResultOfItems c.items))

/-- Method `ChromaClient.insert`: get-or-create the collection with cosine
space, then add the items in backend-size-safe batches. -/
def insert (maxBatch : Nat) (s : ChromaState) (collection_name : String)
    (items : List VectorItem) : ChromaState :=
  let s1 := ChromaDB.get_or_create_collection s collection_name "cosine"
  (ChromaDB.create_batches maxBatch items).foldl
    (fun st batch => ChromaDB.collectionAdd st collection_name batch) s1

/-- Method `ChromaClient.delete`: removes items by id list, or else by
metadata filter (Python truthiness: an empty list or dict selects the next
branch).  The `get_collection` call is not `try`-wrapped, so a missing
collection propagates the chromadb exception — writes let failures raise. -/
def delete (s : ChromaState) (collection_name : String)
    (ids : Option (List String)) (filter : Option Meta) :
    Except ChromaErr ChromaState :=
  match ChromaDB.get_collection s collection_name with
  | .error e => .error e
  | .ok _ =>
    if (ids.getD []).isEmpty = false then
      .ok ⟨ChromaDB.updateAssoc s.collections collection_name
        (fun c => ⟨c.space, c.items.filter
          (fun it => !((ids.getD []).contains it.id))⟩)⟩
    else if (filter.getD []).isEmpty = false then
      .ok ⟨ChromaDB.updateAssoc s.collections collection_name
        (fun c => ⟨c.space, c.items.filter
          (fun it => !(ChromaDB.matchesFilter (filter.getD []) it.metadata))⟩)⟩
    else .ok s

end ChromaClient

/-! ## Association-list lemmas -/

theorem alookup_append {β : Type} (x y : List (String × β)) (k : String) :
    alookup (x ++ y) k =
      match alookup x k with
      | some v => some v
      | none => alookup y k := by
  induction x with
  | nil => rfl
  | cons hd t ih =>
    rcases hd with ⟨k', v⟩
    by_cases hk : k' = k
    · simp [alookup, hk]
    · simp [alookup, hk, ih]

theorem alookup_updateAssoc_self {β : Type} (l : List (String × β)) (key : String)
    (f : β → β) :
    alookup (ChromaDB.updateAssoc l key f) key = (alookup l key).map f := by
  induction l with
  | nil => rfl
  | cons hd t ih =>
    rcases hd with ⟨k', v⟩
    by_cases hk : k' = key
    · simp [ChromaDB.updateAssoc, alookup, hk]
    · simp [ChromaDB.updateAssoc, alookup, hk, ih]

theorem alookup_updateAssoc_ne {β : Type} (l : List (String × β)) (key k : String)
    (f : β → β) (h : k ≠ key) :
    alookup (ChromaDB.updateAssoc l key f) k = alookup l k := by
  induction l with
  | nil => rfl
  | cons hd t ih =>
    rcases hd with ⟨k', v⟩
    by_cases hk : k' = key
    · subst hk
      have hk2 : ¬ k' = k := fun hh => h hh.symm
      simp [ChromaDB.updateAssoc, alookup, hk2, ih]
    · simp [ChromaDB.updateAssoc, alookup, hk, ih]

theorem alookup_isSome_iff_mem {β : Type} (l : List (String × β)) (k : String) :
    (alookup l k).isSome = true ↔ k ∈ l.map Prod.fst := by
  induction l with
  | nil => simp [alookup]
  | cons hd t ih =>
    rcases hd with ⟨k', v⟩
    by_cases hk : k' = k
    · subst hk
      simp [alookup]
    · simp only [alookup, hk, if_false, List.map_cons, List.mem_cons]
      rw [ih]
      constructor
      · exact fun h => Or.inr h
      · rintro (h | h)
        · exact absurd h.symm hk
        · exact h

theorem alookup_filter_key {β : Type} (a : List (String × β)) (p : String × β → Bool)
    (k : String) (hp : ∀ v, p (k, v) = true) :
    alookup (a.filter p) k = alookup a k := by
  induction a with
  | nil => rfl
  | cons hd t ih =>
    rcases hd with ⟨k', v⟩
    by_cases hk : k' = k
    · subst hk
      simp [List.filter_cons, hp v, alookup, ih]
    · rcases hpv : p (k', v) with _ | _
      · simp [List.filter_cons, hpv, alookup, hk, ih]
      · simp [List.filter_cons, hpv, alookup, hk, ih]

theorem alookup_mergeDict (a b : Meta) (k : String) :
    alookup (mergeDict a b) k =
      match alookup b k with
      | some v => some v
      | none => alookup a k := by
  unfold mergeDict
  rw [alookup_append]
  rcases hb : alookup b k with _ | v
  · simp only [hb]
    exact alookup_filter_key a _ k (fun v => by simp [hb])
  · simp [hb]

theorem alookup_sanitizeMeta (m : Meta) (k : String) :
    alookup (sanitizeMeta m) k = (alookup m k).map sanitizeValue := by
  induction m with
  | nil => rfl
  | cons hd t ih =>
    rcases hd with ⟨k', v⟩
    by_cases hk : k' = k
    · simp [sanitizeMeta, alookup, hk]
    · simp only [sanitizeMeta, List.map_cons] at ih ⊢
      simp [alookup, hk, ih]

theorem sanitizeValue_not_datetime (v : MetaValue) :
    (sanitizeValue v).isDatetime = false := by
  cases v <;> rfl

theorem mem_sanitizeMeta_not_datetime (m : Meta) (kv : String × MetaValue)
    (h : kv ∈ sanitizeMeta m) : kv.2.isDatetime = false := by
  unfold sanitizeMeta at h
  rcases List.mem_map.mp h with ⟨⟨k, v⟩, _, hkv⟩
  subst hkv
  exact sanitizeValue_not_datetime v

/-! ## Batch and insert lemmas -/

theorem create_batches_flatten {α : Type} (n : Nat) (l : List α) :
    (ChromaDB.create_batches n l).flatten = l := by
  induction l using ChromaDB.create_batches.induct n with
  | case1 => simp [ChromaDB.create_batches]
  | case2 x xs ih =>
    rw [ChromaDB.create_batches]
    simp only [List.flatten_cons, ih]
    rw [List.cons_append, List.take_append_drop]

theorem create_batches_size {α : Type} (n : Nat) (l : List α) :
    ∀ b ∈ ChromaDB.create_batches n l, b.length ≤ max 1 n := by
  induction l using ChromaDB.create_batches.induct n with
  | case1 => intro b hb; simp [ChromaDB.create_batches] at hb
  | case2 x xs ih =>
    intro b hb
    rw [ChromaDB.create_batches] at hb
    rcases List.mem_cons.mp hb with hb | hb
    · subst hb
      simp only [List.length_cons, List.length_take]
      omega
    · exact ih b hb

theorem foldl_collectionAdd_lookup (batches : List (List VectorItem)) (name : String) :
    ∀ (s : ChromaState) (sp : String) (items0 : List VectorItem),
      alookup s.collections name = some ⟨sp, items0⟩ →
      alookup ((batches.foldl (fun st b => ChromaDB.collectionAdd st name b) s).collections)
          name = some ⟨sp, items0 ++ batches.flatten⟩ := by
  induction batches with
  | nil => intro s sp items0 h; simpa using h
  | cons b t ih =>
    intro s sp items0 h
    simp only [List.foldl_cons, List.flatten_cons]
    have hstep : alookup (ChromaDB.collectionAdd s name b).collections name
        = some ⟨sp, items0 ++ b⟩ := by
      show alookup (ChromaDB.updateAssoc s.collections name _) name = _
      rw [alookup_updateAssoc_self, h]
      rfl
    rw [ih _ _ _ hstep, List.append_assoc]

theorem foldl_collectionAdd_lookup_ne (batches : List (List VectorItem)) (name k : String)
    (hk : k ≠ name) :
    ∀ (s : ChromaState),
      alookup ((batches.foldl (fun st b => ChromaDB.collectionAdd st name b) s).collections) k
        = alookup s.collections k := by
  induction batches with
  | nil => intro s; rfl
  | cons b t ih =>
    intro s
    simp only [List.foldl_cons]
    rw [ih]
    show alookup (ChromaDB.updateAssoc s.collections name _) k = alookup s.collections k
    exact alookup_updateAssoc_ne _ _ _ _ hk

theorem get_or_create_lookup_self (s : ChromaState) (name space : String) :
    alookup (ChromaDB.get_or_create_collection s name space).collections name =
      some (match alookup s.collections name with
            | some c => c
            | none => ⟨space, []⟩) := by
  unfold ChromaDB.get_or_create_collection
  rcases h : alookup s.collections name with _ | c
  · simp only [h]
    rw [alookup_append, h]
    simp [alookup]
  · simp [h]

theorem get_or_create_lookup_ne (s : ChromaState) (name space k : String) (hk : k ≠ name) :
    alookup (ChromaDB.get_or_create_collection s name space).collections k =
      alookup s.collections k := by
  unfold ChromaDB.get_or_create_collection
  rcases h : alookup s.collections name with _ | c
  · simp only [h]
    rw [alookup_append]
    rcases h2 : alookup s.collections k with _ | c2
    · simp [alookup, h2, show ¬ name = k from fun hh => hk hh.symm]
    · simp [h2]
  · simp

theorem insert_lookup (maxBatch : Nat) (s : ChromaState) (name : String)
    (items : List VectorItem) :
    alookup (ChromaClient.insert maxBatch s name items).collections name =
      some (match alookup s.collections name with
            | some c => ⟨c.space, c.items ++ items⟩
            | none => ⟨"cosine", items⟩) := by
  unfold ChromaClient.insert
  rcases h : alookup s.collections name with _ | c
  · have h1 := get_or_create_lookup_self s name "cosine"
    rw [h] at h1
    have := foldl_collectionAdd_lookup (ChromaDB.create_batches maxBatch items) name
      (ChromaDB.get_or_create_collection s name "cosine") "cosine" [] h1
    rw [create_batches_flatten] at this
    simpa using this
  · have h1 := get_or_create_lookup_self s name "cosine"
    rw [h] at h1
    have := foldl_collectionAdd_lookup (ChromaDB.create_batches maxBatch items) name
      (ChromaDB.get_or_create_collection s name "cosine") c.space c.items h1
    rw [create_batches_flatten] at this
    simpa using this

theorem insert_lookup_ne (maxBatch : Nat) (s : ChromaState) (name k : String)
    (items : List VectorItem) (hk : k ≠ name) :
    alookup (ChromaClient.insert maxBatch s name items).collections k =
      alookup s.collections k := by
  unfold ChromaClient.insert
  rw [foldl_collectionAdd_lookup_ne _ _ _ hk]
  exact get_or_create_lookup_ne s name "cosine" k hk

theorem insert_lookup_fresh (maxBatch : Nat) (s : ChromaState) (name : String)
    (items : List VectorItem) (h : alookup s.collections name = none) :
    alookup (ChromaClient.insert maxBatch s name items).collections name =
      some ⟨"cosine", items⟩ := by
  have h2 := insert_lookup maxBatch s name items
  rw [h] at h2
  simpa using h2

theorem insert_lookup_existing (maxBatch : Nat) (s : ChromaState) (name : String)
    (items : List VectorItem) (c0 : Collection)
    (h : alookup s.collections name = some c0) :
    alookup (ChromaClient.insert maxBatch s name items).collections name =
      some ⟨c0.space, c0.items ++ items⟩ := by
  have h2 := insert_lookup maxBatch s name items
  rw [h] at h2
  simpa using h2

theorem delete_collection_lookup_ne (s : ChromaState) (name k : String) (hk : k ≠ name) :
    alookup (ChromaClient.delete_collection s name).collections k =
      alookup s.collections k := by
  unfold ChromaClient.delete_collection
  exact alookup_filter_key _ _ _ (fun v => by simp [hk])

theorem delete_collection_lookup_self (s : ChromaState) (name : String) :
    alookup (ChromaClient.delete_collection s name).collections name = none := by
  unfold ChromaClient.delete_collection
  induction s.collections with
  | nil => rfl
  | cons hd t ih =>
    rcases hd with ⟨k', v⟩
    by_cases hk : k' = name
    · simpa [List.filter_cons, hk] using ih
    · simpa [List.filter_cons, hk, alookup] using ih

theorem has_collection_iff (s : ChromaState) (name : String) :
    ChromaClient.has_collection s name = true ↔
      (alookup s.collections name).isSome = true := by
  unfold ChromaClient.has_collection
  rw [alookup_isSome_iff_mem, decide_eq_true_iff]

/-! ## Claim C1 -/

/-- C1 (amended): on the Chroma backend, `search` and `query` catch failures —
a missing collection as well as a raising backend call — and return `None`;
`get` has no exception handler, so a missing collection propagates the
chromadb exception instead of returning `None`, and the write path is likewise
unhandled: `delete` on a missing collection propagates the exception. -/
theorem chroma_read_error_policy
    (s : ChromaState) (name : String)
    (knn : Collection → List (List ℚ) → Nat → Except ChromaErr RawQueryResult)
    (cget : Collection → Meta → Option Nat → Except ChromaErr (List VectorItem))
    (vectors : List (List ℚ)) (limit : Nat) (filter : Meta) (lim : Option Nat)
    (ids : Option (List String)) (dfilter : Option Meta) :
    (alookup s.collections name = none →
      ChromaClient.search knn s name vectors limit = none ∧
      ChromaClient.query cget s name filter lim = none ∧
      ChromaClient.get s name = .error (.collectionNotFound name) ∧
      ChromaClient.delete s name ids dfilter = .error (.collectionNotFound name)) ∧
    (∀ (c : Collection) (e : ChromaErr),
      alookup s.collections name = some c →
      knn c vectors limit = .error e →
      ChromaClient.search knn s name vectors limit = none) ∧
    (∀ (c : Collection) (e : ChromaErr),
      alookup s.collections name = some c →
      cget c filter lim = .error e →
      ChromaClient.query cget s name filter lim = none) := by
  refine ⟨?_, ?_, ?_⟩
  · intro h
    refine ⟨?_, ?_, ?_, ?_⟩ <;>
      simp [ChromaClient.search, ChromaClient.query, ChromaClient.get,
        ChromaClient.delete, ChromaDB.get_collection, h]
  · intro c e hc hk
    simp [ChromaClient.search, ChromaDB.get_collection, hc, hk]
  · intro c e hc hg
    simp [ChromaClient.query, ChromaDB.get_collection, hc, hg]

/-- Witness for C1 (amended): the error policy at concrete inputs — missing
collection for all four operations, and a raising backend call under both
`search` and `query`. -/
theorem chroma_read_error_policy_witness :
    ChromaClient.search (fun _ _ _ => .error (.backendFailure "boom")) ⟨[]⟩ "c" [] 2 = none ∧
    ChromaClient.query (fun _ _ _ => .error (.backendFailure "boom")) ⟨[]⟩ "c" [] none = none ∧
    ChromaClient.get ⟨[]⟩ "c" = .error (.collectionNotFound "c") ∧
    ChromaClient.delete ⟨[]⟩ "c" (some ["i"]) none = .error (.collectionNotFound "c") ∧
    ChromaClient.search (fun _ _ _ => .error (.backendFailure "boom"))
      ⟨[("c", ⟨"cosine", []⟩)]⟩ "c" [] 2 = none ∧
    ChromaClient.query (fun _ _ _ => .error (.backendFailure "boom"))
      ⟨[("c", ⟨"cosine", []⟩)]⟩ "c" [] none = none := by
  have h1 := (chroma_read_error_policy ⟨[]⟩ "c"
    (fun _ _ _ => .error (.backendFailure "boom"))
    (fun _ _ _ => .error (.backendFailure "boom")) [] 2 [] none (some ["i"]) none).1 rfl
  have h2 := (chroma_read_error_policy ⟨[("c", ⟨"cosine", []⟩)]⟩ "c"
    (fun _ _ _ => .error (.backendFailure "boom"))
    (fun _ _ _ => .error (.backendFailure "boom")) [] 2 [] none (some ["i"]) none).2.1
    ⟨"cosine", []⟩ (.backendFailure "boom") (by simp [alookup]) rfl
  have h3 := (chroma_read_error_policy ⟨[("c", ⟨"cosine", []⟩)]⟩ "c"
    (fun _ _ _ => .error (.backendFailure "boom"))
    (fun _ _ _ => .error (.backendFailure "boom")) [] 2 [] none (some ["i"]) none).2.2
    ⟨"cosine", []⟩ (.backendFailure "boom") (by simp [alookup]) rfl
  exact ⟨h1.1, h1.2.1, h1.2.2.1, h1.2.2.2, h2, h3⟩

/-- C1 counterexample: `get` on a collection that does not exist raises the
chromadb exception rather than returning `None` — the claim that every read
operation degrades to `None` is false for `get`. -/
theorem chroma_get_raises_counterexample :
    ChromaClient.get ⟨[]⟩ "docs" = .error (.collectionNotFound "docs") ∧
    ∀ r : Option GetResult, ChromaClient.get ⟨[]⟩ "docs" ≠ .ok r := by
  constructor
  · rfl
  · intro r h
    simp [ChromaClient.get, ChromaDB.get_collection, alookup] at h

/-! ## Claims C6 and C7 -/

/-- C6: `insert` creates the collection with cosine distance when absent, and
appends every passed item whatever the batch size — the items are split into
sub-batches no larger than the backend maximum, transparently to the caller. -/
theorem insert_creates_and_appends_all (maxBatch : Nat) (s : ChromaState)
    (name : String) (items : List VectorItem) :
    alookup (ChromaClient.insert maxBatch s name items).collections name =
      some (match alookup s.collections name with
            | some c => ⟨c.space, c.items ++ items⟩
            | none => ⟨"cosine", items⟩) ∧
    ∀ b ∈ ChromaDB.create_batches maxBatch items, b.length ≤ max 1 maxBatch :=
  ⟨insert_lookup maxBatch s name items, create_batches_size maxBatch items⟩

/-- Witness for C6: concrete three-item insert with maximum batch size two. -/
theorem insert_creates_and_appends_all_witness :
    alookup (ChromaClient.insert 2 ⟨[]⟩ "c"
        [⟨"a", "ta", [1], []⟩, ⟨"b", "tb", [2], []⟩, ⟨"d", "td", [3], []⟩]).collections "c" =
      some ⟨"cosine", [⟨"a", "ta", [1], []⟩, ⟨"b", "tb", [2], []⟩, ⟨"d", "td", [3], []⟩]⟩ ∧
    ([⟨"a", "ta", [1], []⟩, ⟨"b", "tb", [2], []⟩] : List VectorItem).length ≤ max 1 2 := by
  have h := insert_creates_and_appends_all 2 ⟨[]⟩ "c"
    [⟨"a", "ta", [1], []⟩, ⟨"b", "tb", [2], []⟩, ⟨"d", "td", [3], []⟩]
  refine ⟨by simpa [alookup] using h.1, ?_⟩
  refine h.2 [⟨"a", "ta", [1], []⟩, ⟨"b", "tb", [2], []⟩] ?_
  simp [ChromaDB.create_batches]

/-- C7: inserting items with pairwise-distinct ids into a fresh collection and
then dumping the collection with `get` returns exactly those items: the same
ids, texts and metadata, here even in insertion order. -/
theorem insert_then_get_roundtrip (maxBatch : Nat) (s : ChromaState) (name : String)
    (items : List VectorItem)
    (hfresh : alookup s.collections name = none)
    (hids : (items.map VectorItem.id).Nodup) :
    ChromaClient.get (ChromaClient.insert maxBatch s name items) name =
      .ok (some ⟨[items.map VectorItem.id], [items.map VectorItem.text],
                 [items.map VectorItem.metadata]⟩) := by
  have h := insert_lookup maxBatch s name items
  rw [hfresh] at h
  simp only [ChromaClient.get, ChromaDB.get_collection, h]
  rfl

/-- Witness for C7: two items with distinct ids round-trip through a fresh
collection. -/
theorem insert_then_get_roundtrip_witness :
    ChromaClient.get (ChromaClient.insert 2 ⟨[]⟩ "c"
        [⟨"a", "ta", [1], []⟩, ⟨"b", "tb", [2], []⟩]) "c" =
      .ok (some ⟨[["a", "b"]], [["ta", "tb"]], [[[], []]]⟩) := by
  have h := insert_then_get_roundtrip 2 ⟨[]⟩ "c"
    [⟨"a", "ta", [1], []⟩, ⟨"b", "tb", [2], []⟩] rfl (by decide)
  simpa using h

/-! ## ColBERT late-interaction scorer (`open_webui/retrieval/models/colbert.py`)

Token-embedding tensors are modelled as nested lists of rationals:
`[batch, tokens, features]`.  The softmax is computed over the reals.  The
rank-3 validation of the source is enforced by the types; the batch-size
validation is explicit. -/

/-- Exception raised by `calculate_similarity_scores` on a batch mismatch. -/
inductive ColbertErr where
  | batchSizeMismatch
deriving DecidableEq

/-- Sum of pairwise products: one entry of the batched matrix multiply. -/
def dotQ (a b : List ℚ) : ℚ := (List.zipWith (fun x y => x * y) a b).sum

/-- Maximum entry of a list of rationals (the max-pool over document tokens). -/
def listMaxQ (l : List ℚ) : ℚ := l.foldl max l.headI

/-- Softmax over a list of reals, as `torch.softmax(..., dim=0)` computes it. -/
noncomputable def softmax (l : List ℝ) : List ℝ :=
  l.map (fun x => Real.exp x / (l.map Real.exp).sum)

namespace ColBERT

/-- Raw relevance scores of `calculate_similarity_scores`: for document `i`
the matrix product with the (broadcast) transposed query embeddings gives all
token-pair similarities, `torch.max(..., dim=1)` takes for every query token
the maximum over the document tokens, and `.sum(dim=1)` adds those
per-query-token maxima into one scalar per document. -/
def final_scores (query_embeddings document_embeddings : List (List (List ℚ))) :
    List ℚ :=
  document_embeddings.enum.map (fun p =>
    ((if query_embeddings.length = 1 then query_embeddings.headI
      else query_embeddings.getD p.1 []).map
      (fun qTok => listMaxQ (p.2.map (fun dTok => dotQ dTok qTok)))).sum)

/-- Method `ColBERT.calculate_similarity_scores`: validates that there is one
query or as many queries as documents, computes the MaxSim scores and
normalises them with a softmax across the candidate set. -/
noncomputable def calculate_similarity_scores
    (query_embeddings document_embeddings : List (List (List ℚ))) :
    Except ColbertErr (List ℝ) :=
  if query_embeddings.length = 1 ∨
      query_embeddings.length = document_embeddings.length then
    .ok (softmax ((final_scores query_embeddings document_embeddings).map
      (fun q : ℚ => (q : ℝ))))
  else .error .batchSizeMismatch

/-- Method `ColBERT.predict`: the query is the first component of the first
pair only, the documents are the second components of all pairs; the token
encoders of the external colbert checkpoint are parameters. -/
noncomputable def predict
    (docFromText queryFromText : List String → List (List (List ℚ)))
    (sentences : List (String × String)) : Except ColbertErr (List ℝ) :=
  let query := sentences.headI.1
  let docs := sentences.map Prod.snd
  let embedded_docs := docFromText docs
  let embedded_query := (queryFromText [query]).headI
  calculate_similarity_scores [embedded_query] embedded_docs

end ColBERT

/-! ## Softmax facts -/

theorem sum_map_div (l : List ℝ) (f : ℝ → ℝ) (c : ℝ) :
    (l.map (fun x => f x / c)).sum = (l.map f).sum / c := by
  induction l with
  | nil => simp
  | cons x t ih => simp [ih, add_div]

theorem expsum_pos (l : List ℝ) (h : l ≠ []) : 0 < (l.map Real.exp).sum := by
  rcases l with _ | ⟨x, t⟩
  · exact absurd rfl h
  · simp only [List.map_cons, List.sum_cons]
    have h1 : (0:ℝ) ≤ (t.map Real.exp).sum := by
      apply List.sum_nonneg
      intro y hy
      rcases List.mem_map.mp hy with ⟨z, _, hz⟩
      exact hz ▸ (Real.exp_pos z).le
    have h2 := Real.exp_pos x
    linarith

theorem softmax_length (l : List ℝ) : (softmax l).length = l.length := by
  simp [softmax]

theorem softmax_mem_bounds (l : List ℝ) (h : l ≠ []) :
    ∀ y ∈ softmax l, 0 ≤ y ∧ y ≤ 1 := by
  intro y hy
  rcases List.mem_map.mp hy with ⟨x, hx, hxy⟩
  subst hxy
  have hS := expsum_pos l h
  constructor
  · exact div_nonneg (Real.exp_pos x).le hS.le
  · rw [div_le_one hS]
    refine List.single_le_sum ?_ _ (List.mem_map_of_mem Real.exp hx)
    intro z hz
    rcases List.mem_map.mp hz with ⟨w, _, hw⟩
    exact hw ▸ (Real.exp_pos w).le

theorem softmax_sum (l : List ℝ) (h : l ≠ []) : (softmax l).sum = 1 := by
  unfold softmax
  rw [sum_map_div]
  exact div_self (expsum_pos l h).ne'

/-! ## Claim C4 -/

/-- C4: for one query (or a matching batch) and at least one candidate, the
late-interaction scorer computes the per-document MaxSim raw scores and
softmax-normalises them, so the returned values all lie in `[0, 1]` and sum
to exactly `1` (in particular within `1e-6` of `1`). -/
theorem colbert_scores_softmax_distribution
    (qE dE : List (List (List ℚ))) (hN : dE ≠ [])
    (hb : qE.length = 1 ∨ qE.length = dE.length) :
    ∃ scores : List ℝ,
      ColBERT.calculate_similarity_scores qE dE = .ok scores ∧
      scores = softmax ((ColBERT.final_scores qE dE).map (fun q : ℚ => (q : ℝ))) ∧
      scores.length = dE.length ∧
      (∀ x ∈ scores, 0 ≤ x ∧ x ≤ 1) ∧
      scores.sum = 1 ∧ |scores.sum - 1| ≤ 1 / 1000000 := by
  have hlen : ((ColBERT.final_scores qE dE).map (fun q : ℚ => (q : ℝ))).length
      = dE.length := by
    rw [List.length_map]
    unfold ColBERT.final_scores
    rw [List.length_map, List.enum_length]
  have hne : ((ColBERT.final_scores qE dE).map (fun q : ℚ => (q : ℝ))) ≠ [] := by
    intro hz
    rw [hz] at hlen
    exact hN (List.eq_nil_of_length_eq_zero hlen.symm)
  refine ⟨softmax ((ColBERT.final_scores qE dE).map (fun q : ℚ => (q : ℝ))),
    ?_, rfl, ?_, softmax_mem_bounds _ hne, softmax_sum _ hne, ?_⟩
  · unfold ColBERT.calculate_similarity_scores
    rw [if_pos hb]
  · rw [softmax_length, hlen]
  · rw [softmax_sum _ hne]
    norm_num

/-- Witness for C4: one single-token query and one single-token document. -/
theorem colbert_scores_softmax_distribution_witness :
    ∃ scores : List ℝ,
      ColBERT.calculate_similarity_scores [[[(1 : ℚ)]]] [[[(1 : ℚ)]]] = .ok scores ∧
      scores = softmax ((ColBERT.final_scores [[[(1 : ℚ)]]] [[[(1 : ℚ)]]]).map
        (fun q : ℚ => (q : ℝ))) ∧
      scores.length = ([[[(1 : ℚ)]]] : List (List (List ℚ))).length ∧
      (∀ x ∈ scores, 0 ≤ x ∧ x ≤ 1) ∧
      scores.sum = 1 ∧ |scores.sum - 1| ≤ 1 / 1000000 :=
  colbert_scores_softmax_distribution [[[(1 : ℚ)]]] [[[(1 : ℚ)]]]
    (by simp) (Or.inl rfl)

/-! ## Claim C9 -/

/-- C9: `predict` reads only the query of the first pair and the document
components; runs that differ only in the query component of pairs other than
the first produce identical score arrays. -/
theorem predict_depends_only_on_first_query_and_docs
    (docFromText queryFromText : List String → List (List (List ℚ)))
    (l1 l2 : List (String × String))
    (h1 : l1 ≠ []) (h2 : l2 ≠ [])
    (hq : l1.headI.1 = l2.headI.1)
    (hd : l1.map Prod.snd = l2.map Prod.snd) :
    ColBERT.predict docFromText queryFromText l1 =
      ColBERT.predict docFromText queryFromText l2 := by
  unfold ColBERT.predict
  rw [hq, hd]

/-- Witness for C9: changing the query of the second pair leaves the scores
unchanged. -/
theorem predict_depends_only_on_first_query_and_docs_witness :
    ColBERT.predict (fun _ => [[[(1 : ℚ)]]]) (fun _ => [[[(1 : ℚ)]]])
        [("q", "a"), ("ignored", "b")] =
      ColBERT.predict (fun _ => [[[(1 : ℚ)]]]) (fun _ => [[[(1 : ℚ)]]])
        [("q", "a"), ("changed", "b")] :=
  predict_depends_only_on_first_query_and_docs _ _ _ _
    (by simp) (by simp) rfl rfl

/-! ## Reranking configuration and query handlers (`omni_webui/routers/retrieval.py`)

State machine for claim C5: the application state holds the RAG configuration
flags and the loaded reranking function `rf`. -/

/-- A loaded reranking model (ColBERT or a cross-encoder). -/
inductive RerankModel where
  | colbert (name : String)
  | crossEncoder (name : String)
deriving DecidableEq

/-- Exception raised while loading a reranking model in `get_rf`. -/
inductive LoadErr where
  | loadFailed (msg : String)
deriving DecidableEq

/-- The RAG-relevant part of `request.app.state.config`. -/
structure RagConfig where
  RAG_RERANKING_MODEL : String
  ENABLE_RAG_HYBRID_SEARCH : Bool
deriving DecidableEq

/-- The RAG-relevant part of `request.app.state`. -/
structure AppState where
  config : RagConfig
  rf : Option RerankModel
deriving DecidableEq

/-- Response body of the `/reranking/update` endpoint. -/
structure RerankingUpdateResponse where
  status : Bool
  reranking_model : String
deriving DecidableEq

/-- Endpoint `update_reranking_config`: stores the new model name, then tries
to load it; a load failure is caught, logged, and disables
`ENABLE_RAG_HYBRID_SEARCH` while the request still returns `status: True`. -/
def update_reranking_config (get_rf : String → Except LoadErr (Option RerankModel))
    (st : AppState) (reranking_model : String) :
    RerankingUpdateResponse × AppState :=
  let cfg1 : RagConfig := { st.config with RAG_RERANKING_MODEL := reranking_model }
  match get_rf reranking_model with
  | .ok rf => (⟨true, reranking_model⟩, ⟨cfg1, rf⟩)
  | .error _ =>
    (⟨true, reranking_model⟩, ⟨{ cfg1 with ENABLE_RAG_HYBRID_SEARCH := false }, st.rf⟩)

/-- Which retrieval path a query handler takes: the hybrid path uses the
loaded reranking function, the dense path never touches it. -/
inductive RetrievalPath where
  | hybrid (rf : Option RerankModel)
  | dense
deriving DecidableEq

/-- Endpoint `query_doc_handler`: branches on `ENABLE_RAG_HYBRID_SEARCH`
between `query_doc_with_hybrid_search` (which receives `state.rf`) and the
dense-only `query_doc`. -/
def query_doc_handler (st : AppState) : RetrievalPath :=
  if st.config.ENABLE_RAG_HYBRID_SEARCH then .hybrid st.rf else .dense

/-- Endpoint `query_collection_handler`: same branch as `query_doc_handler`
for multi-collection queries. -/
def query_collection_handler (st : AppState) : RetrievalPath :=
  if st.config.ENABLE_RAG_HYBRID_SEARCH then .hybrid st.rf else .dense

/-! ## Claim C5 -/

/-- C5: when loading the configured reranking model raises, the exception is
caught, hybrid search is disabled, the triggering request still returns
`status: True`, and every subsequent `query_doc`/`query_collection` call on
the resulting state takes the dense-only path. -/
theorem reranker_load_failure_falls_back
    (get_rf : String → Except LoadErr (Option RerankModel))
    (st : AppState) (m : String) (e : LoadErr)
    (hfail : get_rf m = .error e) :
    (update_reranking_config get_rf st m).1.status = true ∧
    (update_reranking_config get_rf st m).1.reranking_model = m ∧
    (update_reranking_config get_rf st m).2.config.ENABLE_RAG_HYBRID_SEARCH = false ∧
    query_doc_handler (update_reranking_config get_rf st m).2 = .dense ∧
    query_collection_handler (update_reranking_config get_rf st m).2 = .dense := by
  simp [update_reranking_config, hfail, query_doc_handler, query_collection_handler]

/-- Witness for C5: a concrete failing loader on a concrete state. -/
theorem reranker_load_failure_falls_back_witness :
    (update_reranking_config (fun _ => .error (.loadFailed "no weights"))
        ⟨⟨"old", true⟩, none⟩ "m").1.status = true ∧
    (update_reranking_config (fun _ => .error (.loadFailed "no weights"))
        ⟨⟨"old", true⟩, none⟩ "m").1.reranking_model = "m" ∧
    (update_reranking_config (fun _ => .error (.loadFailed "no weights"))
        ⟨⟨"old", true⟩, none⟩ "m").2.config.ENABLE_RAG_HYBRID_SEARCH = false ∧
    query_doc_handler (update_reranking_config
        (fun _ => .error (.loadFailed "no weights")) ⟨⟨"old", true⟩, none⟩ "m").2 = .dense ∧
    query_collection_handler (update_reranking_config
        (fun _ => .error (.loadFailed "no weights")) ⟨⟨"old", true⟩, none⟩ "m").2 = .dense :=
  reranker_load_failure_falls_back (fun _ => .error (.loadFailed "no weights"))
    ⟨⟨"old", true⟩, none⟩ "m" (.loadFailed "no weights") rfl

/-! ## Ingestion pipeline (`save_docs_to_vector_db` in `omni_webui/routers/retrieval.py`)

External collaborators are parameters: the two langchain splitters selected by
the `TEXT_SPLITTER` configuration, the embedding function, and the uuid
generator (indexed by chunk position).  `embCfg` is the serialised
`embedding_config` JSON string. -/

/-- A langchain document: page content plus metadata. -/
structure Doc where
  page_content : String
  metadata : Meta
deriving DecidableEq

/-- The `ValueError`s raised by `save_docs_to_vector_db` (identified by the
`ERROR_MESSAGES` constant they carry), plus the index error a short embedding
batch would raise. -/
inductive SaveErr where
  | duplicateContent
  | invalidTextSplitter
  | emptyContent
  | embeddingLengthMismatch
deriving DecidableEq

/-- Duplicate-hash check at the top of `save_docs_to_vector_db`: when the
caller metadata carries a `hash`, query the collection for it and flag a
duplicate when the returned id list is non-empty. -/
def dupCheck (s : ChromaState) (collection_name : String) (metadata : Option Meta) :
    Bool :=
  match metadata.bind (fun m => alookup m "hash") with
  | none => false
  | some h =>
    match ChromaClient.query ChromaDB.collectionGet s collection_name
        [("hash", h)] none with
    | none => false
    | some r => !(r.ids.headI.isEmpty)

/-- Splitter selection and application: `TEXT_SPLITTER` chooses the character
or token splitter, anything else raises; with `split=False` the documents pass
through unchanged. -/
def applySplit (textSplitterCfg : String) (charSplit tokenSplit : List Doc → List Doc)
    (split : Bool) (docs : List Doc) : Except SaveErr (List Doc) :=
  if split then
    if textSplitterCfg = "" ∨ textSplitterCfg = "character" then .ok (charSplit docs)
    else if textSplitterCfg = "token" then .ok (tokenSplit docs)
    else .error .invalidTextSplitter
  else .ok docs

/-- Per-chunk metadata: the document metadata merged with the caller metadata
and the `embedding_config` entry, then datetime-sanitised (the datetime loop
of the source runs over exactly these dictionaries before items are built). -/
def mkMetadatas (docs : List Doc) (metadata : Option Meta) (embCfg : String) :
    List Meta :=
  docs.map (fun d =>
    sanitizeMeta (mergeDict (mergeDict d.metadata (metadata.getD []))
      [("embedding_config", .str embCfg)]))

/-- The list comprehension building one `VectorItem` per chunk: a generated id
per index, the original text, the embedding and metadata at the same index. -/
def mkItems (genId : Nat → String) :
    Nat → List String → List (List ℚ) → List Meta → List VectorItem
  | _, [], _, _ => []
  | _, _ :: _, [], _ => []
  | _, _ :: _, _ :: _, [] => []
  | idx, t :: ts, v :: vs, m :: ms => ⟨genId idx, t, v, m⟩ :: mkItems genId (idx + 1) ts vs ms

/-- The items `save_docs_to_vector_db` inserts for the split documents: texts
are embedded with newlines collapsed to spaces, items keep the original text. -/
def ingestItems (embCfg : String) (embed : List String → List (List ℚ))
    (genId : Nat → String) (docs2 : List Doc) (metadata : Option Meta) :
    List VectorItem :=
  let texts := docs2.map (·.page_content)
  mkItems genId 0 texts (embed (texts.map (fun t => t.replace "\n" " ")))
    (mkMetadatas docs2 metadata embCfg)

/-- Continuation of `save_docs_to_vector_db` after splitting: empty-content
check, mode handling (`overwrite`/`add`), embedding, and insertion. -/
def save_docs_core
    (embCfg : String) (embed : List String → List (List ℚ)) (genId : Nat → String)
    (maxBatch : Nat) (s : ChromaState) (collection_name : String)
    (metadata : Option Meta) (overwrite add : Bool) (docs2 : List Doc) :
    Except SaveErr Bool × ChromaState :=
  if docs2.length = 0 then (.error .emptyContent, s)
  else
    let texts := docs2.map (·.page_content)
    if ChromaClient.has_collection s collection_name && !overwrite && !add then
      (.ok true, s)
    else
      let s1 := if ChromaClient.has_collection s collection_name && overwrite then
        ChromaClient.delete_collection s collection_name else s
      let embeddings := embed (texts.map (fun t => t.replace "\n" " "))
      if embeddings.length ≠ texts.length then (.error .embeddingLengthMismatch, s1)
      else
        (.ok true, ChromaClient.insert maxBatch s1 collection_name
          (ingestItems embCfg embed genId docs2 metadata))

/-- Function `save_docs_to_vector_db`: duplicate-hash check, splitting, then
`save_docs_core`.  The returned state makes each mutation of the vector store
explicit; an error leaves the store as it was at the raise site. -/
def save_docs_to_vector_db
    (textSplitterCfg : String) (charSplit tokenSplit : List Doc → List Doc)
    (embCfg : String) (embed : List String → List (List ℚ)) (genId : Nat → String)
    (maxBatch : Nat) (s : ChromaState) (docs : List Doc) (collection_name : String)
    (metadata : Option Meta) (overwrite split add : Bool) :
    Except SaveErr Bool × ChromaState :=
  if dupCheck s collection_name metadata then (.error .duplicateContent, s)
  else
    match applySplit textSplitterCfg charSplit tokenSplit split docs with
    | .error e => (.error e, s)
    | .ok docs2 =>
      save_docs_core embCfg embed genId maxBatch s collection_name metadata
        overwrite add docs2

/-! ## Ingestion helper lemmas -/

theorem mkItems_metadata_mem (genId : Nat → String) :
    ∀ (idx : Nat) (ts : List String) (vs : List (List ℚ)) (ms : List Meta),
      ∀ it ∈ mkItems genId idx ts vs ms, it.metadata ∈ ms := by
  intro idx ts
  induction ts generalizing idx with
  | nil => intro vs ms it hit; simp [mkItems] at hit
  | cons t ts ih =>
    intro vs ms it hit
    rcases vs with _ | ⟨v, vs⟩
    · simp [mkItems] at hit
    · rcases ms with _ | ⟨m, ms⟩
      · simp [mkItems] at hit
      · rcases List.mem_cons.mp hit with hit | hit
        · subst hit; exact List.mem_cons_self _ _
        · exact List.mem_cons_of_mem _ (ih (idx + 1) vs ms it hit)

theorem mkItems_exists_of_ne_nil (genId : Nat → String) (idx : Nat)
    (ts : List String) (vs : List (List ℚ)) (ms : List Meta)
    (hts : ts ≠ []) (hvs : vs ≠ []) (hms : ms ≠ []) :
    ∃ it ∈ mkItems genId idx ts vs ms, it.metadata ∈ ms := by
  rcases ts with _ | ⟨t, ts⟩
  · exact absurd rfl hts
  rcases vs with _ | ⟨v, vs⟩
  · exact absurd rfl hvs
  rcases ms with _ | ⟨m, ms⟩
  · exact absurd rfl hms
  exact ⟨⟨genId idx, t, v, m⟩, List.mem_cons_self _ _, List.mem_cons_self _ _⟩

theorem mkMetadatas_mem_hash (docs : List Doc) (md : Meta) (embCfg : String)
    (h : MetaValue) (hmd : alookup md "hash" = some h) :
    ∀ m ∈ mkMetadatas docs (some md) embCfg,
      alookup m "hash" = some (sanitizeValue h) := by
  intro m hm
  unfold mkMetadatas at hm
  rcases List.mem_map.mp hm with ⟨d, _, hde⟩
  subst hde
  rw [alookup_sanitizeMeta, alookup_mergeDict, alookup_mergeDict]
  simp [alookup, hmd]

theorem mkMetadatas_no_datetime (docs : List Doc) (metadata : Option Meta)
    (embCfg : String) :
    ∀ m ∈ mkMetadatas docs metadata embCfg, ∀ kv ∈ m, kv.2.isDatetime = false := by
  intro m hm kv hkv
  unfold mkMetadatas at hm
  rcases List.mem_map.mp hm with ⟨d, _, hde⟩
  subst hde
  exact mem_sanitizeMeta_not_datetime _ kv hkv

theorem ingestItems_no_datetime (embCfg : String) (embed : List String → List (List ℚ))
    (genId : Nat → String) (docs2 : List Doc) (metadata : Option Meta) :
    ∀ it ∈ ingestItems embCfg embed genId docs2 metadata,
      ∀ kv ∈ it.metadata, kv.2.isDatetime = false := by
  intro it hit kv hkv
  unfold ingestItems at hit
  have hm := mkItems_metadata_mem genId 0 _ _ _ it hit
  exact mkMetadatas_no_datetime _ _ _ _ hm kv hkv

theorem dupCheck_true_of_mem (s : ChromaState) (name : String) (md : Meta)
    (h : MetaValue) (c : Collection) (it : VectorItem)
    (hmd : alookup md "hash" = some h)
    (hcol : alookup s.collections name = some c)
    (hit : it ∈ c.items)
    (hhash : alookup it.metadata "hash" = some h) :
    dupCheck s name (some md) = true := by
  have hmem : it ∈ c.items.filter
      (fun x => ChromaDB.matchesFilter [("hash", h)] x.metadata) := by
    rw [List.mem_filter]
    exact ⟨hit, by simp [ChromaDB.matchesFilter, hhash]⟩
  have hne := List.ne_nil_of_mem hmem
  unfold dupCheck
  rw [show (some md).bind (fun m => alookup m "hash") = some h by simp [hmd]]
  simp only [ChromaClient.query, ChromaDB.get_collection, ChromaDB.collectionGet,
    hcol, getResultOfItems]
  simp [hne]

theorem dupCheck_false_of_missing (s : ChromaState) (name : String)
    (metadata : Option Meta)
    (hfresh : alookup s.collections name = none) :
    dupCheck s name metadata = false := by
  unfold dupCheck
  rcases hh : metadata.bind (fun m => alookup m "hash") with _ | h
  · rfl
  · simp [ChromaClient.query, ChromaDB.get_collection, hfresh]

/-! ## Run lemmas for `save_docs_to_vector_db` -/

theorem save_docs_run_dup
    (tsCfg : String) (cs ts : List Doc → List Doc) (embCfg : String)
    (embed : List String → List (List ℚ)) (genId : Nat → String) (maxBatch : Nat)
    (s : ChromaState) (docs : List Doc) (name : String) (metadata : Option Meta)
    (overwrite split add : Bool)
    (hdup : dupCheck s name metadata = true) :
    save_docs_to_vector_db tsCfg cs ts embCfg embed genId maxBatch s docs name
      metadata overwrite split add = (.error .duplicateContent, s) := by
  unfold save_docs_to_vector_db
  rw [if_pos hdup]

theorem save_docs_eq_core
    (tsCfg : String) (cs ts : List Doc → List Doc) (embCfg : String)
    (embed : List String → List (List ℚ)) (genId : Nat → String) (maxBatch : Nat)
    (s : ChromaState) (docs : List Doc) (name : String) (metadata : Option Meta)
    (overwrite split add : Bool) (docs2 : List Doc)
    (hdup : dupCheck s name metadata = false)
    (hsplit : applySplit tsCfg cs ts split docs = .ok docs2) :
    save_docs_to_vector_db tsCfg cs ts embCfg embed genId maxBatch s docs name
      metadata overwrite split add =
      save_docs_core embCfg embed genId maxBatch s name metadata overwrite add docs2 := by
  unfold save_docs_to_vector_db
  rw [if_neg (by simp [hdup]), hsplit]

theorem save_docs_run_empty
    (tsCfg : String) (cs ts : List Doc → List Doc) (embCfg : String)
    (embed : List String → List (List ℚ)) (genId : Nat → String) (maxBatch : Nat)
    (s : ChromaState) (docs : List Doc) (name : String) (metadata : Option Meta)
    (overwrite split add : Bool)
    (hdup : dupCheck s name metadata = false)
    (hsplit : applySplit tsCfg cs ts split docs = .ok []) :
    save_docs_to_vector_db tsCfg cs ts embCfg embed genId maxBatch s docs name
      metadata overwrite split add = (.error .emptyContent, s) := by
  rw [save_docs_eq_core tsCfg cs ts embCfg embed genId maxBatch s docs name
    metadata overwrite split add [] hdup hsplit]
  rfl

theorem save_docs_run_noop
    (tsCfg : String) (cs ts : List Doc → List Doc) (embCfg : String)
    (embed : List String → List (List ℚ)) (genId : Nat → String) (maxBatch : Nat)
    (s : ChromaState) (docs : List Doc) (name : String) (metadata : Option Meta)
    (overwrite split add : Bool) (docs2 : List Doc)
    (hdup : dupCheck s name metadata = false)
    (hsplit : applySplit tsCfg cs ts split docs = .ok docs2)
    (hlen : docs2.length ≠ 0)
    (hskip : (ChromaClient.has_collection s name && !overwrite && !add) = true) :
    save_docs_to_vector_db tsCfg cs ts embCfg embed genId maxBatch s docs name
      metadata overwrite split add = (.ok true, s) := by
  rw [save_docs_eq_core tsCfg cs ts embCfg embed genId maxBatch s docs name
    metadata overwrite split add docs2 hdup hsplit]
  unfold save_docs_core
  simp only [if_neg hlen, hskip, if_true]

theorem save_docs_run_insert
    (tsCfg : String) (cs ts : List Doc → List Doc) (embCfg : String)
    (embed : List String → List (List ℚ)) (genId : Nat → String) (maxBatch : Nat)
    (s : ChromaState) (docs : List Doc) (name : String) (metadata : Option Meta)
    (overwrite split add : Bool) (docs2 : List Doc)
    (hdup : dupCheck s name metadata = false)
    (hsplit : applySplit tsCfg cs ts split docs = .ok docs2)
    (hlen : docs2.length ≠ 0)
    (hskip : (ChromaClient.has_collection s name && !overwrite && !add) = false)
    (hemb : (embed ((docs2.map (·.page_content)).map (fun t => t.replace "\n" " "))).length
      = (docs2.map (·.page_content)).length) :
    save_docs_to_vector_db tsCfg cs ts embCfg embed genId maxBatch s docs name
      metadata overwrite split add =
      (.ok true, ChromaClient.insert maxBatch
        (if ChromaClient.has_collection s name && overwrite
         then ChromaClient.delete_collection s name else s)
        name (ingestItems embCfg embed genId docs2 metadata)) := by
  rw [save_docs_eq_core tsCfg cs ts embCfg embed genId maxBatch s docs name
    metadata overwrite split add docs2 hdup hsplit]
  unfold save_docs_core
  simp only [if_neg hlen, hskip, Bool.false_eq_true, if_false, hemb, ne_eq,
    not_true_eq_false, reduceIte]

theorem save_docs_ok_state
    (tsCfg : String) (cs ts : List Doc → List Doc) (embCfg : String)
    (embed : List String → List (List ℚ)) (genId : Nat → String) (maxBatch : Nat)
    (s : ChromaState) (docs : List Doc) (name : String) (metadata : Option Meta)
    (overwrite split add : Bool) (res : Except SaveErr Bool) (sf : ChromaState)
    (hok : save_docs_to_vector_db tsCfg cs ts embCfg embed genId maxBatch s docs name
      metadata overwrite split add = (res, sf)) (hres : res = .ok true) :
    sf = s ∨ ∃ docs2, applySplit tsCfg cs ts split docs = .ok docs2 ∧
      (sf = ChromaClient.insert maxBatch s name
          (ingestItems embCfg embed genId docs2 metadata) ∨
       sf = ChromaClient.insert maxBatch (ChromaClient.delete_collection s name) name
          (ingestItems embCfg embed genId docs2 metadata)) := by
  subst hres
  by_cases h1 : dupCheck s name metadata = true
  · rw [save_docs_run_dup tsCfg cs ts embCfg embed genId maxBatch s docs name
      metadata overwrite split add h1] at hok
    simp at hok
  · rw [Bool.not_eq_true] at h1
    rcases hs : applySplit tsCfg cs ts split docs with e | docs2
    · unfold save_docs_to_vector_db at hok
      rw [if_neg (by simp [h1]), hs] at hok
      simp at hok
    · rw [save_docs_eq_core tsCfg cs ts embCfg embed genId maxBatch s docs name
        metadata overwrite split add docs2 h1 hs] at hok
      unfold save_docs_core at hok
      by_cases h2 : docs2.length = 0
      · rw [if_pos h2] at hok
        simp at hok
      · rw [if_neg h2] at hok
        by_cases h3 : (ChromaClient.has_collection s name && !overwrite && !add) = true
        · rw [h3] at hok
          simp only [if_true] at hok
          exact Or.inl (congrArg Prod.snd hok).symm
        · rw [Bool.not_eq_true] at h3
          rw [h3] at hok
          simp only [Bool.false_eq_true, if_false] at hok
          by_cases h4 : (ChromaClient.has_collection s name && overwrite) = true
          · rw [h4] at hok
            simp only [if_true] at hok
            by_cases h5 : (embed ((docs2.map (·.page_content)).map
                (fun t => t.replace "\n" " "))).length = (docs2.map (·.page_content)).length
            · rw [if_neg (by simpa using h5)] at hok
              refine Or.inr ⟨docs2, rfl, Or.inr ?_⟩
              exact (congrArg Prod.snd hok).symm
            · rw [if_pos (by simpa using h5)] at hok
              simp at hok
          · rw [Bool.not_eq_true] at h4
            rw [h4] at hok
            simp only [Bool.false_eq_true, if_false] at hok
            by_cases h5 : (embed ((docs2.map (·.page_content)).map
                (fun t => t.replace "\n" " "))).length = (docs2.map (·.page_content)).length
            · rw [if_neg (by simpa using h5)] at hok
              refine Or.inr ⟨docs2, rfl, Or.inl ?_⟩
              exact (congrArg Prod.snd hok).symm
            · rw [if_pos (by simpa using h5)] at hok
              simp at hok

theorem ingestItems_eq (embCfg : String) (embed : List String → List (List ℚ))
    (genId : Nat → String) (docs2 : List Doc) (metadata : Option Meta) :
    ingestItems embCfg embed genId docs2 metadata =
      mkItems genId 0 (docs2.map (·.page_content))
        (embed ((docs2.map (·.page_content)).map (fun t => t.replace "\n" " ")))
        (mkMetadatas docs2 metadata embCfg) := rfl

/-! ## Concrete fixtures for the claim witnesses -/

/-- Embedding stub for concrete runs: one empty vector per input text. -/
def constEmbed : List String → List (List ℚ) := fun l => l.map (fun _ => [])

/-- Id generator stub for concrete runs. -/
def genU : Nat → String := fun _ => "u"

/-- Pass-through splitter stub. -/
def idSplit : List Doc → List Doc := fun d => d

/-- Splitter stub producing zero chunks. -/
def emptySplit : List Doc → List Doc := fun _ => []

/-- Store holding one collection `col` with one item carrying hash `h`. -/
def dupState : ChromaState :=
  ⟨[("col", ⟨"cosine", [⟨"i", "t", [], [("hash", .str "h")]⟩]⟩)]⟩

/-- Store holding one empty collection `col`. -/
def exState : ChromaState := ⟨[("col", ⟨"cosine", []⟩)]⟩

/-! ## Claim C2 -/

/-- C2: when the caller metadata carries a content hash already present on an
item of the target collection (as `VectorStore.query` on that hash finds),
`save_docs_to_vector_db` raises the duplicate-content error before anything
is embedded or inserted, leaving the store unchanged; consequently ingesting
the same hash twice into one fresh collection keeps exactly the items of the
first call and the second call raises the error. -/
theorem dedup_invariant :
    (∀ (tsCfg : String) (cs ts : List Doc → List Doc) (embCfg : String)
       (embed : List String → List (List ℚ)) (genId : Nat → String) (maxBatch : Nat)
       (s : ChromaState) (docs : List Doc) (name : String) (md : Meta)
       (h : MetaValue) (c : Collection) (it : VectorItem) (overwrite split add : Bool),
       alookup md "hash" = some h →
       alookup s.collections name = some c →
       it ∈ c.items →
       alookup it.metadata "hash" = some h →
       save_docs_to_vector_db tsCfg cs ts embCfg embed genId maxBatch s docs name
         (some md) overwrite split add = (.error .duplicateContent, s)) ∧
    (∀ (tsCfg : String) (cs ts : List Doc → List Doc) (embCfg : String)
       (embed : List String → List (List ℚ)) (genId : Nat → String) (maxBatch : Nat)
       (s : ChromaState) (docs : List Doc) (name : String) (md : Meta) (hs : String)
       (overwrite add : Bool),
       alookup md "hash" = some (.str hs) →
       alookup s.collections name = none →
       (∀ l, (embed l).length = l.length) →
       docs ≠ [] →
       (save_docs_to_vector_db tsCfg cs ts embCfg embed genId maxBatch s docs name
          (some md) overwrite false add).1 = .ok true ∧
       ∀ (docsB : List Doc) (mdB : Meta) (owB spB adB : Bool),
         alookup mdB "hash" = some (.str hs) →
         save_docs_to_vector_db tsCfg cs ts embCfg embed genId maxBatch
           (save_docs_to_vector_db tsCfg cs ts embCfg embed genId maxBatch s docs name
             (some md) overwrite false add).2 docsB name (some mdB) owB spB adB
           = (.error .duplicateContent,
              (save_docs_to_vector_db tsCfg cs ts embCfg embed genId maxBatch s docs name
                (some md) overwrite false add).2)) := by
  constructor
  · intro tsCfg cs ts embCfg embed genId maxBatch s docs name md h c it overwrite split
      add hmd hcol hit hhash
    exact save_docs_run_dup tsCfg cs ts embCfg embed genId maxBatch s docs name (some md)
      overwrite split add (dupCheck_true_of_mem s name md h c it hmd hcol hit hhash)
  · intro tsCfg cs ts embCfg embed genId maxBatch s docs name md hs overwrite add hmd
      hfresh hembAll hdocs
    have hdup := dupCheck_false_of_missing s name (some md) hfresh
    have hhc : ChromaClient.has_collection s name = false := by
      rw [← Bool.not_eq_true]
      intro hx
      have h2 := (has_collection_iff s name).mp hx
      rw [hfresh] at h2
      simp at h2
    have hsplit : applySplit tsCfg cs ts false docs = .ok docs := rfl
    have htsne : docs.map (fun d => d.page_content) ≠ [] := by
      simpa using hdocs
    have hlen : docs.length ≠ 0 := by
      intro h0
      exact hdocs (List.length_eq_zero.mp h0)
    have hskip : (ChromaClient.has_collection s name && !overwrite && !add) = false := by
      rw [hhc]
      rfl
    have hemb2 : (embed ((docs.map (·.page_content)).map
        (fun t => t.replace "\n" " "))).length = (docs.map (·.page_content)).length := by
      rw [hembAll]
      simp
    have hrun := save_docs_run_insert tsCfg cs ts embCfg embed genId maxBatch s docs name
      (some md) overwrite false add docs hdup hsplit hlen hskip hemb2
    rw [hhc] at hrun
    simp only [Bool.false_and, Bool.false_eq_true, if_false] at hrun
    refine ⟨by rw [hrun], ?_⟩
    intro docsB mdB owB spB adB hmdB
    have hcol2 := insert_lookup_fresh maxBatch s name
      (ingestItems embCfg embed genId docs (some md)) hfresh
    have hvsne : embed ((docs.map (·.page_content)).map (fun t => t.replace "\n" " "))
        ≠ [] := by
      intro h0
      rw [h0] at hemb2
      have h3 : (docs.map (fun d => d.page_content)).length = 0 := by
        simpa using hemb2.symm
      exact htsne (List.length_eq_zero.mp h3)
    have hmsne : mkMetadatas docs (some md) embCfg ≠ [] := by
      unfold mkMetadatas
      simpa using hdocs
    obtain ⟨it, hit, hitm⟩ := mkItems_exists_of_ne_nil genId 0 (docs.map (·.page_content))
      (embed ((docs.map (·.page_content)).map (fun t => t.replace "\n" " ")))
      (mkMetadatas docs (some md) embCfg) htsne hvsne hmsne
    have hit2 : it ∈ ingestItems embCfg embed genId docs (some md) := by
      rw [ingestItems_eq]
      exact hit
    have hhash2 : alookup it.metadata "hash" = some (.str hs) :=
      mkMetadatas_mem_hash docs md embCfg (.str hs) hmd it.metadata hitm
    have hdup2 := dupCheck_true_of_mem
      (ChromaClient.insert maxBatch s name (ingestItems embCfg embed genId docs (some md)))
      name mdB (.str hs) ⟨"cosine", ingestItems embCfg embed genId docs (some md)⟩ it
      hmdB hcol2 hit2 hhash2
    rw [hrun]
    exact save_docs_run_dup tsCfg cs ts embCfg embed genId maxBatch
      (ChromaClient.insert maxBatch s name (ingestItems embCfg embed genId docs (some md)))
      docsB name (some mdB) owB spB adB hdup2

/-- Witness for C2: a duplicate raises on a populated store, and a concrete
double ingestion of hash `h` into a fresh collection behaves as claimed. -/
theorem dedup_invariant_witness :
    save_docs_to_vector_db "" idSplit idSplit "cfg" constEmbed genU 5 dupState [] "col"
      (some [("hash", MetaValue.str "h")]) false false false
      = (.error .duplicateContent, dupState) ∧
    (save_docs_to_vector_db "" idSplit idSplit "cfg" constEmbed genU 5 ⟨[]⟩
      [⟨"t", []⟩] "col" (some [("hash", MetaValue.str "h")]) false false false).1
      = .ok true ∧
    save_docs_to_vector_db "" idSplit idSplit "cfg" constEmbed genU 5
      (save_docs_to_vector_db "" idSplit idSplit "cfg" constEmbed genU 5 ⟨[]⟩
        [⟨"t", []⟩] "col" (some [("hash", MetaValue.str "h")]) false false false).2
      [⟨"t", []⟩] "col" (some [("hash", MetaValue.str "h")]) false false false
      = (.error .duplicateContent,
         (save_docs_to_vector_db "" idSplit idSplit "cfg" constEmbed genU 5 ⟨[]⟩
           [⟨"t", []⟩] "col" (some [("hash", MetaValue.str "h")]) false false false).2) := by
  have h1 := dedup_invariant.1 "" idSplit idSplit "cfg" constEmbed genU 5 dupState []
    "col" [("hash", MetaValue.str "h")] (.str "h") ⟨"cosine", [⟨"i", "t", [],
    [("hash", .str "h")]⟩]⟩ ⟨"i", "t", [], [("hash", .str "h")]⟩ false false false
    rfl rfl (List.mem_singleton.mpr rfl) rfl
  have h2 := dedup_invariant.2 "" idSplit idSplit "cfg" constEmbed genU 5 ⟨[]⟩
    [⟨"t", []⟩] "col" [("hash", MetaValue.str "h")] "h" false false rfl rfl
    (by intro l; simp [constEmbed]) (by simp)
  exact ⟨h1, h2.1, h2.2 [⟨"t", []⟩] [("hash", MetaValue.str "h")] false false false rfl⟩

/-! ## Claim C3 -/

/-- C3 (amended): for an ingestion call on an existing collection that passes
the duplicate-hash check and produces at least one chunk (with an embedding
function returning one vector per text): `overwrite` deletes the collection
before embedding and inserting, `overwrite=False, add=False` is a no-op
success leaving the store untouched, and `add` (without `overwrite`) inserts
into the existing collection. -/
theorem ingestion_mode_semantics
    (tsCfg : String) (cs ts : List Doc → List Doc) (embCfg : String)
    (embed : List String → List (List ℚ)) (genId : Nat → String) (maxBatch : Nat)
    (s : ChromaState) (docs : List Doc) (name : String) (metadata : Option Meta)
    (overwrite split add : Bool) (docs2 : List Doc)
    (hdup : dupCheck s name metadata = false)
    (hsplit : applySplit tsCfg cs ts split docs = .ok docs2)
    (hlen : docs2.length ≠ 0)
    (hex : ChromaClient.has_collection s name = true)
    (hembAll : ∀ l, (embed l).length = l.length) :
    (overwrite = true →
      save_docs_to_vector_db tsCfg cs ts embCfg embed genId maxBatch s docs name
        metadata overwrite split add =
        (.ok true, ChromaClient.insert maxBatch (ChromaClient.delete_collection s name)
          name (ingestItems embCfg embed genId docs2 metadata))) ∧
    (overwrite = false → add = false →
      save_docs_to_vector_db tsCfg cs ts embCfg embed genId maxBatch s docs name
        metadata overwrite split add = (.ok true, s)) ∧
    (overwrite = false → add = true →
      save_docs_to_vector_db tsCfg cs ts embCfg embed genId maxBatch s docs name
        metadata overwrite split add =
        (.ok true, ChromaClient.insert maxBatch s name
          (ingestItems embCfg embed genId docs2 metadata))) := by
  have hemb2 : (embed ((docs2.map (·.page_content)).map
      (fun t => t.replace "\n" " "))).length = (docs2.map (·.page_content)).length := by
    rw [hembAll]
    simp
  refine ⟨?_, ?_, ?_⟩
  · intro how
    subst how
    have hrun := save_docs_run_insert tsCfg cs ts embCfg embed genId maxBatch s docs name
      metadata true split add docs2 hdup hsplit hlen (by rw [hex]; rfl) hemb2
    rw [hrun, hex]
    rfl
  · intro how had
    subst how
    subst had
    exact save_docs_run_noop tsCfg cs ts embCfg embed genId maxBatch s docs name
      metadata false split false docs2 hdup hsplit hlen (by rw [hex]; rfl)
  · intro how had
    subst how
    subst had
    have hrun := save_docs_run_insert tsCfg cs ts embCfg embed genId maxBatch s docs name
      metadata false split true docs2 hdup hsplit hlen (by rw [hex]; rfl) hemb2
    rw [hrun, hex]
    rfl

/-- Witness for C3 (amended): all three modes on a concrete existing
collection. -/
theorem ingestion_mode_semantics_witness :
    save_docs_to_vector_db "" idSplit idSplit "cfg" constEmbed genU 5 exState
      [⟨"t", []⟩] "col" none true false false =
      (.ok true, ChromaClient.insert 5 (ChromaClient.delete_collection exState "col")
        "col" (ingestItems "cfg" constEmbed genU [⟨"t", []⟩] none)) ∧
    save_docs_to_vector_db "" idSplit idSplit "cfg" constEmbed genU 5 exState
      [⟨"t", []⟩] "col" none false false false = (.ok true, exState) ∧
    save_docs_to_vector_db "" idSplit idSplit "cfg" constEmbed genU 5 exState
      [⟨"t", []⟩] "col" none false false true =
      (.ok true, ChromaClient.insert 5 exState "col"
        (ingestItems "cfg" constEmbed genU [⟨"t", []⟩] none)) := by
  have hex : ChromaClient.has_collection exState "col" = true := by decide
  have hembAll : ∀ l, (constEmbed l).length = l.length := by
    intro l
    simp [constEmbed]
  have h1 := ingestion_mode_semantics "" idSplit idSplit "cfg" constEmbed genU 5 exState
    [⟨"t", []⟩] "col" none true false false [⟨"t", []⟩] rfl rfl (by decide) hex hembAll
  have h2 := ingestion_mode_semantics "" idSplit idSplit "cfg" constEmbed genU 5 exState
    [⟨"t", []⟩] "col" none false false false [⟨"t", []⟩] rfl rfl (by decide) hex hembAll
  have h3 := ingestion_mode_semantics "" idSplit idSplit "cfg" constEmbed genU 5 exState
    [⟨"t", []⟩] "col" none false false true [⟨"t", []⟩] rfl rfl (by decide) hex hembAll
  exact ⟨h1.1 rfl, h2.2.1 rfl rfl, h3.2.2 rfl rfl⟩

/-- C3 counterexample: a call on an existing collection with `overwrite=False`
and `add=False` but zero chunks raises the empty-content error instead of
returning success, so the mode rules only hold after the earlier checks
pass. -/
theorem ingestion_mode_counterexample :
    save_docs_to_vector_db "" idSplit idSplit "cfg" constEmbed genU 5 exState []
      "col" none false false false = (.error .emptyContent, exState) ∧
    (Except.error SaveErr.emptyContent : Except SaveErr Bool) ≠ .ok true := by
  constructor
  · rfl
  · intro h
    cases h

/-! ## Claim C8 -/

/-- C8 (amended): when splitting produces zero chunks and the duplicate-hash
check did not already fire, `save_docs_to_vector_db` raises the empty-content
error and nothing is embedded or written — the store is returned unchanged. -/
theorem empty_chunks_raise
    (tsCfg : String) (cs ts : List Doc → List Doc) (embCfg : String)
    (embed : List String → List (List ℚ)) (genId : Nat → String) (maxBatch : Nat)
    (s : ChromaState) (docs : List Doc) (name : String) (metadata : Option Meta)
    (overwrite split add : Bool)
    (hdup : dupCheck s name metadata = false)
    (hsplit : applySplit tsCfg cs ts split docs = .ok []) :
    save_docs_to_vector_db tsCfg cs ts embCfg embed genId maxBatch s docs name
      metadata overwrite split add = (.error .emptyContent, s) :=
  save_docs_run_empty tsCfg cs ts embCfg embed genId maxBatch s docs name metadata
    overwrite split add hdup hsplit

/-- Witness for C8 (amended): a concrete empty ingestion on a fresh store. -/
theorem empty_chunks_raise_witness :
    save_docs_to_vector_db "" emptySplit emptySplit "cfg" constEmbed genU 5 ⟨[]⟩ []
      "col" none false true false = (.error .emptyContent, ⟨[]⟩) :=
  empty_chunks_raise "" emptySplit emptySplit "cfg" constEmbed genU 5 ⟨[]⟩ [] "col"
    none false true false rfl rfl

/-- C8 counterexample: with a caller hash already present in the collection
and a splitter yielding zero chunks, the call raises the duplicate-content
error, not the empty-content error — the duplicate check runs before the
empty-content check. -/
theorem empty_chunks_counterexample :
    save_docs_to_vector_db "" emptySplit emptySplit "cfg" constEmbed genU 5 dupState
      [] "col" (some [("hash", MetaValue.str "h")]) false true false
      = (.error .duplicateContent, dupState) ∧
    SaveErr.duplicateContent ≠ SaveErr.emptyContent := by
  constructor
  · rfl
  · intro h
    cases h

/-! ## Claim C10 -/

/-- C10: before items are built, every datetime metadata value is replaced by
its string rendering and every other value is untouched; consequently no item
written by `save_docs_to_vector_db` carries a datetime metadata value — every
item of the resulting store either predates the call or is datetime-free. -/
theorem metadata_datetime_sanitized :
    (∀ r : String, sanitizeValue (.datetime r) = .str r) ∧
    (∀ v : MetaValue, v.isDatetime = false → sanitizeValue v = v) ∧
    (∀ (tsCfg : String) (cs ts : List Doc → List Doc) (embCfg : String)
       (embed : List String → List (List ℚ)) (genId : Nat → String) (maxBatch : Nat)
       (s : ChromaState) (docs : List Doc) (name : String) (metadata : Option Meta)
       (overwrite split add : Bool) (sf : ChromaState),
       save_docs_to_vector_db tsCfg cs ts embCfg embed genId maxBatch s docs name
         metadata overwrite split add = (.ok true, sf) →
       ∀ (cname : String) (c : Collection),
         alookup sf.collections cname = some c →
         ∀ it ∈ c.items,
           (∃ c0, alookup s.collections cname = some c0 ∧ it ∈ c0.items) ∨
           (∀ kv ∈ it.metadata, kv.2.isDatetime = false)) := by
  refine ⟨fun r => rfl, ?_, ?_⟩
  · intro v hv
    cases v <;> first | rfl | simp [MetaValue.isDatetime] at hv
  · intro tsCfg cs ts embCfg embed genId maxBatch s docs name metadata overwrite split
      add sf hok cname c hc it hit
    rcases save_docs_ok_state tsCfg cs ts embCfg embed genId maxBatch s docs name
      metadata overwrite split add (.ok true) sf hok rfl with hsf | ⟨docs2, _, hsf | hsf⟩
    · subst hsf
      exact Or.inl ⟨c, hc, hit⟩
    · subst hsf
      by_cases hcn : cname = name
      · subst hcn
        rcases hs0 : alookup s.collections cname with _ | c0
        · rw [insert_lookup_fresh maxBatch s cname _ hs0] at hc
          have hceq := Option.some.inj hc
          rw [← hceq] at hit
          exact Or.inr (fun kv hkv => ingestItems_no_datetime embCfg embed genId docs2
            metadata it hit kv hkv)
        · rw [insert_lookup_existing maxBatch s cname _ c0 hs0] at hc
          have hceq := Option.some.inj hc
          rw [← hceq] at hit
          rcases List.mem_append.mp hit with hold | hnew
          · exact Or.inl ⟨c0, rfl, hold⟩
          · exact Or.inr (fun kv hkv => ingestItems_no_datetime embCfg embed genId docs2
              metadata it hnew kv hkv)
      · rw [insert_lookup_ne maxBatch s name cname _ hcn] at hc
        exact Or.inl ⟨c, hc, hit⟩
    · subst hsf
      by_cases hcn : cname = name
      · subst hcn
        rw [insert_lookup_fresh maxBatch (ChromaClient.delete_collection s cname) cname _
          (delete_collection_lookup_self s cname)] at hc
        have hceq := Option.some.inj hc
        rw [← hceq] at hit
        exact Or.inr (fun kv hkv => ingestItems_no_datetime embCfg embed genId docs2
          metadata it hit kv hkv)
      · rw [insert_lookup_ne maxBatch (ChromaClient.delete_collection s name) name cname
          _ hcn, delete_collection_lookup_ne s name cname hcn] at hc
        exact Or.inl ⟨c, hc, hit⟩

/-- Witness for C10: a datetime value is rendered to its string, a string
value stays put, and a concrete ingestion of a chunk with a datetime metadata
entry yields an item with no datetime value. -/
theorem metadata_datetime_sanitized_witness :
    sanitizeValue (.datetime "2024-01-01 00:00:00") = .str "2024-01-01 00:00:00" ∧
    sanitizeValue (.str "a") = .str "a" ∧
    ((∃ c0, alookup (⟨[]⟩ : ChromaState).collections "col" = some c0 ∧
        (⟨"u", "t", [], [("embedding_config", MetaValue.str "cfg"),
          ("d", MetaValue.str "x")]⟩ : VectorItem) ∈ c0.items) ∨
     (∀ kv ∈ ([("embedding_config", MetaValue.str "cfg"), ("d", MetaValue.str "x")] : Meta),
        kv.2.isDatetime = false)) := by
  refine ⟨metadata_datetime_sanitized.1 "2024-01-01 00:00:00",
    metadata_datetime_sanitized.2.1 (.str "a") rfl, ?_⟩
  have hok : save_docs_to_vector_db "" idSplit idSplit "cfg" constEmbed genU 5 ⟨[]⟩
      [⟨"t", [("d", .datetime "x")]⟩] "col" none false false false
      = (.ok true, ChromaClient.insert 5 ⟨[]⟩ "col"
          (ingestItems "cfg" constEmbed genU [⟨"t", [("d", .datetime "x")]⟩] none)) := by
    have hrun := save_docs_run_insert "" idSplit idSplit "cfg" constEmbed genU 5 ⟨[]⟩
      [⟨"t", [("d", .datetime "x")]⟩] "col" none false false false
      [⟨"t", [("d", .datetime "x")]⟩] rfl rfl (by decide) rfl (by simp [constEmbed])
    simpa using hrun
  have hc := insert_lookup_fresh 5 ⟨[]⟩ "col"
    (ingestItems "cfg" constEmbed genU [⟨"t", [("d", .datetime "x")]⟩] none) rfl
  have hmem : (⟨"u", "t", [], [("embedding_config", MetaValue.str "cfg"),
      ("d", MetaValue.str "x")]⟩ : VectorItem) ∈
      ingestItems "cfg" constEmbed genU [⟨"t", [("d", .datetime "x")]⟩] none := by
    rw [show ingestItems "cfg" constEmbed genU [⟨"t", [("d", .datetime "x")]⟩] none
      = [⟨"u", "t", [], [("embedding_config", MetaValue.str "cfg"),
          ("d", MetaValue.str "x")]⟩] from rfl]
    exact List.mem_singleton.mpr rfl
  exact metadata_datetime_sanitized.2.2 "" idSplit idSplit "cfg" constEmbed genU 5 ⟨[]⟩
    [⟨"t", [("d", .datetime "x")]⟩] "col" none false false false _ hok "col"
    ⟨"cosine", ingestItems "cfg" constEmbed genU [⟨"t", [("d", .datetime "x")]⟩] none⟩
    hc _ hmem

end OmniWebui
